import Mathlib

/-
Shallow embedding of pyrevitlib/pyrevit/revit/db/query.py.

The module is glue over the Revit host API.  Host objects (parameters,
elements, worksets, categories, grids, transmission data) are modelled as
plain Lean structures; host primitives that the module merely calls
(curve intersection, distance, path conversion, transmission-data reading)
are passed in as function parameters.  Python failure behaviours
(raised PyRevitException, UnboundLocalError, TypeError, IndexError,
ArgumentNullException) are modelled with an Except result.
-/

set_option maxHeartbeats 1000000

namespace PyRevit

/-- Failure signals observable from the module: an explicit PyRevitException
with its message, and the Python or .NET runtime errors the code can hit. -/
inductive PyErr
  | pyRevit (msg : String)
  | unboundLocal
  | typeError
  | indexError
  | argumentNull
  deriving DecidableEq

/-- The Revit StorageType enumeration: None, Integer, Double, String, ElementId. -/
inductive StorageType
  | double
  | integer
  | string_
  | elementId
  | noneT
  deriving DecidableEq

/-- A Python value that get_param_value can produce: a double, an int, a
string (AsString may return None) or an ElementId. -/
inductive Value
  | d (x : Int)
  | i (n : Int)
  | s (v : Option String)
  | eid (n : Nat)
  deriving DecidableEq

/-- A Revit Parameter: its StorageType together with the values its
AsDouble, AsInteger, AsString and AsElementId accessors would return. -/
structure Param where
  StorageType : StorageType
  AsDouble : Int
  AsInteger : Int
  AsString : Option String
  AsElementId : Nat
  deriving DecidableEq

/-- A Revit element: an id and its named parameters, as LookupParameter sees them. -/
structure Element where
  id : Nat
  params : List (String × Param)
  deriving DecidableEq

/-- A Revit workset with its Name. -/
structure Workset where
  Name : String
  deriving DecidableEq

/-- A Revit category: its (builtin) id, Name and AllowsBoundParameters flag. -/
structure Category where
  id : Nat
  Name : String
  AllowsBoundParameters : Bool
  deriving DecidableEq

/-- A Revit document as the queried collections the module reads: the
non-element-type elements a FilteredElementCollector returns, the worksets a
FilteredWorksetCollector returns, and the category table in Settings. -/
structure Doc where
  elements : List Element
  worksets : List Workset
  categories : List Category
  deriving DecidableEq

/-- Element.LookupParameter: the first parameter with the given name, or None. -/
def Element.LookupParameter (el : Element) (param_name : String) : Option Param :=
  (el.params.find? (fun p => p.1 == param_name)).map (fun p => p.2)

/-- get_all_elements: FilteredElementCollector(doc).WhereElementIsNotElementType().ToElements(). -/
def get_all_elements (doc : Doc) : List Element :=
  doc.elements

/-- Occurrence of one character list inside another: the needle is a prefix of
some suffix of the hay. -/
def listContains (needle : List Char) : List Char → Bool
  | [] => needle.isEmpty
  | c :: rest => needle.isPrefixOf (c :: rest) || listContains needle rest

/-- Python substring test: needle in hay. -/
def strIn (needle hay : String) : Bool :=
  listContains needle.toList hay.toList

/-- Python test value is None: only a None returned from AsString. -/
def valueIsNone : Value → Bool
  | .s none => true
  | _ => false

/-- Python test type(value) == str. -/
def valueIsStr : Value → Bool
  | .s (some _) => true
  | _ => false

/-- safe_strtype: str() of the value. -/
def safe_strtype : Value → String
  | .d x => toString x
  | .i n => toString n
  | .s (some t) => t
  | .s none => "None"
  | .eid n => toString n

/-- Python str.isspace: nonempty and all whitespace. -/
def pyIsSpaceStr (s : String) : Bool :=
  !(s == "") && s.toList.all (fun c => c.isWhitespace)

/-- isspace lifted to values; only meaningful on string values. -/
def pyIsSpaceV : Value → Bool
  | .s (some t) => pyIsSpaceStr t
  | _ => false

/-- Python equality on the values in play, with numeric cross-type equality. -/
def pyEq : Value → Value → Bool
  | .d x, .d y => x == y
  | .d x, .i y => x == y
  | .i x, .d y => x == y
  | .i x, .i y => x == y
  | .s x, .s y => x == y
  | .eid x, .eid y => x == y
  | _, _ => false

/-- Python membership param_value in value for a string value; a non-string
left operand raises TypeError. -/
def pyIn (param_value value : Value) : Except PyErr Bool :=
  match param_value, value with
  | .s (some p), .s (some hay) => .ok (strIn p hay)
  | _, _ => .error .typeError

/-- get_param_value: dispatch on StorageType; a storage type outside the four
handled ones leaves the local unassigned and the return raises UnboundLocalError. -/
def get_param_value (targetparam : Param) : Except PyErr Value :=
  match targetparam.StorageType with
  | .double => .ok (.d targetparam.AsDouble)
  | .integer => .ok (.i targetparam.AsInteger)
  | .string_ => .ok (.s targetparam.AsString)
  | .elementId => .ok (.eid targetparam.AsElementId)
  | .noneT => .error .unboundLocal

/-- The storage types get_param_value handles. -/
def storageHandled : StorageType → Bool
  | .noneT => false
  | _ => true

/-- The value get_param_value yields on a handled storage type. -/
def paramValue (p : Param) : Value :=
  match p.StorageType with
  | .double => .d p.AsDouble
  | .integer => .i p.AsInteger
  | .string_ => .s p.AsString
  | .elementId => .eid p.AsElementId
  | .noneT => .i 0

/-- A FilterStringRule as built by get_biparam_stringequals_filter: a builtin
parameter id, the string value, and the case flag. -/
inductive FilterRule
  | stringEquals (bip : Nat) (value : String) (caseSensitive : Bool)
  deriving DecidableEq

/-- An ElementParameterFilter over a list of rules. -/
inductive ElemFilter
  | paramFilter (rules : List FilterRule)
  deriving DecidableEq

/-- get_biparam_stringequals_filter: build one FilterStringRule per dict item
and wrap them in an ElementParameterFilter; with no items it raises. -/
def get_biparam_stringequals_filter (bip_paramvalue_dict : List (Nat × String)) :
    Except PyErr ElemFilter :=
  let filters := bip_paramvalue_dict.map (fun p => FilterRule.stringEquals p.1 p.2 true)
  if !filters.isEmpty then
    .ok (.paramFilter filters)
  else
    .error (.pyRevit "Error creating filters.")

/-- The rules carried by a filter result; an error carries none. -/
def rulesOf : Except PyErr ElemFilter → List FilterRule
  | .ok (.paramFilter rules) => rules
  | .error _ => []

/-- The host Application surface get_sharedparam_definition_file reads:
the SharedParametersFilename setting (empty when unset) and what
OpenSharedParameterFile would return (None on failure to open). -/
structure RevitApp (SPF : Type) where
  SharedParametersFilename : String
  OpenSharedParameterFile : Option SPF

/-- get_sharedparam_definition_file: raise when no shared parameters file is
defined or the defined file fails to open, else return the opened file. -/
def get_sharedparam_definition_file {SPF : Type} (app : RevitApp SPF) :
    Except PyErr SPF :=
  if app.SharedParametersFilename != "" then
    match app.OpenSharedParameterFile with
    | some sparamf => .ok sparamf
    | none => .error (.pyRevit "Failed opening Shared Parameters file.")
  else
    .error (.pyRevit "No Shared Parameters file defined.")

/-- Python set.add, on an insertion-ordered list model of the set. -/
def setAdd (values : List Value) (v : Value) : List Value :=
  if v ∈ values then values else values ++ [v]

/-- Loop body of get_value_range: for each element, look the parameter up,
read its value, and when the value is neither None nor the string none, add it
to the set; both branches of the inner isspace conditional add. -/
def valueRangeLoop (param_name : String) (values : List Value) :
    List Element → Except PyErr (List Value)
  | [] => .ok values
  | el :: rest =>
    match el.LookupParameter param_name with
    | some targetparam =>
      match get_param_value targetparam with
      | .error e => .error e
      | .ok value =>
        if !(valueIsNone value) && !((safe_strtype value).toLower == "none") then
          if valueIsStr value && !(pyIsSpaceV value) then
            valueRangeLoop param_name (setAdd values value) rest
          else
            valueRangeLoop param_name (setAdd values value) rest
        else
          valueRangeLoop param_name values rest
    | none => valueRangeLoop param_name values rest

/-- get_value_range: the set of values of the named parameter over all elements. -/
def get_value_range (param_name : String) (doc : Doc) : Except PyErr (List Value) :=
  valueRangeLoop param_name [] (get_all_elements doc)

/-- The same loop with the ineffective isspace conditional removed. -/
def valueRangeLoopSimple (param_name : String) (values : List Value) :
    List Element → Except PyErr (List Value)
  | [] => .ok values
  | el :: rest =>
    match el.LookupParameter param_name with
    | some targetparam =>
      match get_param_value targetparam with
      | .error e => .error e
      | .ok value =>
        if !(valueIsNone value) && !((safe_strtype value).toLower == "none") then
          valueRangeLoopSimple param_name (setAdd values value) rest
        else
          valueRangeLoopSimple param_name values rest
    | none => valueRangeLoopSimple param_name values rest

/-- Simplified get_value_range without the isspace check. -/
def get_value_range_simple (param_name : String) (doc : Doc) : Except PyErr (List Value) :=
  valueRangeLoopSimple param_name [] (get_all_elements doc)

/-- A value passes the usability filter of get_value_range: not None and its
lowercased string form is not none. -/
def valueUsable (v : Value) : Bool :=
  !(valueIsNone v) && !((safe_strtype v).toLower == "none")

/-- An element carries the named parameter with a usable value. -/
def elHasUsable (param_name : String) (el : Element) : Bool :=
  match el.LookupParameter param_name with
  | some p =>
    match get_param_value p with
    | .ok v => valueUsable v
    | .error _ => false
  | none => false

/-- The parameter the element carries under the name, if any, has a handled
storage type. -/
def elParamHandled (param_name : String) (el : Element) : Bool :=
  match el.LookupParameter param_name with
  | some p => storageHandled p.StorageType
  | none => true

/-- Loop body of get_elements_by_parameter, including the two failure paths:
an unhandled storage type in get_param_value, and a non-string param_value
reaching the Python membership test. -/
def elementsLoop (param_name : String) (param_value : Value) (partial_ : Bool)
    (found_els : List Element) : List Element → Except PyErr (List Element)
  | [] => .ok found_els
  | el :: rest =>
    match el.LookupParameter param_name with
    | some targetparam =>
      match get_param_value targetparam with
      | .error e => .error e
      | .ok value =>
        if partial_ && !(valueIsNone value) && valueIsStr value then
          match pyIn param_value value with
          | .error e => .error e
          | .ok b =>
            if b then
              elementsLoop param_name param_value partial_ (found_els ++ [el]) rest
            else if pyEq param_value value then
              elementsLoop param_name param_value partial_ (found_els ++ [el]) rest
            else
              elementsLoop param_name param_value partial_ found_els rest
        else if pyEq param_value value then
          elementsLoop param_name param_value partial_ (found_els ++ [el]) rest
        else
          elementsLoop param_name param_value partial_ found_els rest
    | none => elementsLoop param_name param_value partial_ found_els rest

/-- get_elements_by_parameter: the elements of the document whose named
parameter value matches param_value, by substring when partial_ else by equality. -/
def get_elements_by_parameter (param_name : String) (param_value : Value)
    (doc : Doc) (partial_ : Bool) : Except PyErr (List Element) :=
  elementsLoop param_name param_value partial_ [] (get_all_elements doc)

/-- Python membership as a total Bool, defined on the only case the code
reaches without error: a string param_value against a string value. -/
def pyInB (param_value value : Value) : Bool :=
  match param_value, value with
  | .s (some p), .s (some hay) => strIn p hay
  | _, _ => false

/-- The matching predicate of get_elements_by_parameter, as the spec words it:
the element carries the parameter and either partial_ holds, the value is a
non-None string and param_value is a substring of it, or the value equals
param_value exactly. -/
def elemMatches (param_name : String) (param_value : Value) (partial_ : Bool)
    (el : Element) : Bool :=
  match el.LookupParameter param_name with
  | none => false
  | some p =>
    (partial_ && !(valueIsNone (paramValue p)) && valueIsStr (paramValue p)
      && pyInB param_value (paramValue p))
    || pyEq param_value (paramValue p)

/-- The element cannot make get_elements_by_parameter raise: its parameter, if
carried, has a handled storage type, and when the partial branch would run the
membership test, param_value is a string. -/
def lookupSafe (partial_ : Bool) (param_value : Value) (param_name : String)
    (el : Element) : Bool :=
  match el.LookupParameter param_name with
  | none => true
  | some p =>
    storageHandled p.StorageType
    && (!(partial_ && !(valueIsNone (paramValue p)) && valueIsStr (paramValue p))
        || valueIsStr param_value)

/-- The first argument of find_workset: a list of names, a single name, or any
other value (which matches neither branch and falls through to None). -/
inductive NameOrList
  | names (l : List String)
  | name (s : String)
  | other
  deriving DecidableEq

/-- find_workset: first workset whose Name contains one of the names (list
input), or contains or equals the name (string input, by partial_). -/
def find_workset (workset_name_or_list : NameOrList) (doc : Doc) (partial_ : Bool) :
    Option Workset :=
  match workset_name_or_list with
  | .names names => doc.worksets.find? (fun w => names.any (fun n => strIn n w.Name))
  | .name workset_name =>
    if partial_ then
      doc.worksets.find? (fun w => strIn workset_name w.Name)
    else
      doc.worksets.find? (fun w => workset_name == w.Name)
  | .other => none

/-- The predicate find_workset applies to a workset. -/
def worksetMatches (workset_name_or_list : NameOrList) (partial_ : Bool)
    (w : Workset) : Bool :=
  match workset_name_or_list with
  | .names names => names.any (fun n => strIn n w.Name)
  | .name workset_name =>
    if partial_ then strIn workset_name w.Name else workset_name == w.Name
  | .other => false

/-- The document surface get_links reads: its PathName and GetElement. -/
structure LinksDoc where
  PathName : String
  GetElement : Nat → Option Nat

/-- Last-saved external reference data, carrying its ExternalFileReferenceType. -/
structure ExtRefData (LT : Type) where
  ExternalFileReferenceType : LT
  deriving DecidableEq

/-- Transmission data: the external file reference ids with their data. -/
structure TransData (LT : Type) where
  refs : List (Nat × ExtRefData LT)
  deriving DecidableEq

/-- The db.ExternalRef wrapper: the linked element (possibly None) and the
reference data. -/
structure ExternalRef (LT : Type) where
  link : Option Nat
  extref : ExtRefData LT
  deriving DecidableEq

/-- Reference loop of get_links: wrap each reference, keeping only those of
the requested linktype when one is given. -/
def linksLoop {LT : Type} [BEq LT] (doc : LinksDoc) (linktype : Option LT)
    (links : List (ExternalRef LT)) : List (Nat × ExtRefData LT) → List (ExternalRef LT)
  | [] => links
  | (refId, extRef) :: rest =>
    linksLoop doc linktype
      (match linktype with
       | some lt =>
         if extRef.ExternalFileReferenceType == lt then
           links ++ [ExternalRef.mk (doc.GetElement refId) extRef]
         else
           links
       | none => links ++ [ExternalRef.mk (doc.GetElement refId) extRef]) rest

/-- get_links: raise when the document path is empty, fails to convert to a
model path, or its transmission data cannot be read; otherwise collect the
external references.  The host primitives ConvertUserVisiblePathToModelPath
and ReadTransmissionData are parameters. -/
def get_links {MP LT : Type} [BEq LT] (convert : String → Option MP)
    (readTD : MP → Except String (TransData LT)) (linktype : Option LT)
    (doc : LinksDoc) : Except PyErr (List (ExternalRef LT)) :=
  if doc.PathName == "" then
    .error (.pyRevit "PathName is empty. Model is not saved.")
  else
    match convert doc.PathName with
    | none => .error (.pyRevit "Model is not saved. Can not read links.")
    | some modelPath =>
      match readTD modelPath with
      | .ok transData => .ok (linksLoop doc linktype [] transData.refs)
      | .error _ => .error (.pyRevit "Error reading links from model path.")

/-- The successful result of get_links as the spec words it: the external
references, filtered to linktype when one is given. -/
def linksFromTD {LT : Type} [BEq LT] (doc : LinksDoc) (linktype : Option LT)
    (td : TransData LT) : List (ExternalRef LT) :=
  let kept : List (Nat × ExtRefData LT) :=
    match linktype with
    | some lt => td.refs.filter (fun p => p.2.ExternalFileReferenceType == lt)
    | none => td.refs
  kept.map (fun p => ExternalRef.mk (doc.GetElement p.1) p.2)

/-- Python dict insertion: an existing key keeps its position and gets the new
value; a new key is appended. -/
def dictInsert {κ β : Type} [DecidableEq κ] (d : List (κ × β)) (k : κ) (v : β) :
    List (κ × β) :=
  if d.any (fun kv => decide (kv.1 = k)) then
    d.map (fun kv => if kv.1 = k then (k, v) else kv)
  else
    d ++ [(k, v)]

/-- Python dict lookup on the association list. -/
def lookupD {κ β : Type} [DecidableEq κ] : List (κ × β) → κ → Option β
  | [], _ => none
  | kv :: rest, k => if kv.1 = k then some kv.2 else lookupD rest k

/-- The GridPoint namedtuple: an intersection point and the grids meeting there. -/
structure GridPoint (P G : Type) where
  point : P
  grids : List G
  deriving DecidableEq

/-- Inner loop of get_gridpoints: grid1 fixed, grid2 over the source grids;
a curve intersection with Overlap result records the point (the host curve
intersection primitive is the parameter, returning the first intersection
point exactly on Overlap). -/
def gridIntersectInner {P G : Type} [DecidableEq P] (intersect : G → G → Option P)
    (grid1 : G) (gints : List (P × List G)) : List G → List (P × List G)
  | [] => gints
  | grid2 :: rest =>
    match intersect grid1 grid2 with
    | some pt => gridIntersectInner intersect grid1 (dictInsert gints pt [grid1, grid2]) rest
    | none => gridIntersectInner intersect grid1 gints rest

/-- Outer loop of get_gridpoints: grid1 over the source grids. -/
def gridIntersectOuter {P G : Type} [DecidableEq P] (intersect : G → G → Option P)
    (source_grids : List G) (gints : List (P × List G)) : List G → List (P × List G)
  | [] => gints
  | grid1 :: rest =>
    gridIntersectOuter intersect source_grids
      (gridIntersectInner intersect grid1 gints source_grids) rest

/-- get_gridpoints over an in-memory grid list: nested pairwise intersection
into a point-keyed dict, then one GridPoint per entry. -/
def get_gridpoints {P G : Type} [DecidableEq P] (intersect : G → G → Option P)
    (source_grids : List G) : List (GridPoint P G) :=
  (gridIntersectOuter intersect source_grids [] source_grids).map
    (fun kv => GridPoint.mk kv.1 kv.2)

/-- All ordered pairs drawn from two lists, first component outermost. -/
def ordPairsAux {α : Type} (l₁ l₂ : List α) : List (α × α) :=
  l₁.foldr (fun a acc => l₂.map (fun b => (a, b)) ++ acc) []

/-- All ordered pairs of a list with itself: n squared pairs, each grid also
paired with itself and each unordered pair appearing in both orders. -/
def orderedPairs {α : Type} (l : List α) : List (α × α) :=
  ordPairsAux l l

/-- Single loop over the ordered pairs, recording an overlap into the dict. -/
def gridPairsLoop {P G : Type} [DecidableEq P] (intersect : G → G → Option P)
    (gints : List (P × List G)) : List (G × G) → List (P × List G)
  | [] => gints
  | (g1, g2) :: rest =>
    match intersect g1 g2 with
    | some pt => gridPairsLoop intersect (dictInsert gints pt [g1, g2]) rest
    | none => gridPairsLoop intersect gints rest

/-- get_gridpoints as the spec words it: every ordered pair of source grids is
tested once, and each overlapping pair is recorded under its intersection
point, later pairs replacing earlier ones at the same point. -/
def gridpointsSpec {P G : Type} [DecidableEq P] (intersect : G → G → Option P)
    (source_grids : List G) : List (GridPoint P G) :=
  (gridPairsLoop intersect [] (orderedPairs source_grids)).map
    (fun kv => GridPoint.mk kv.1 kv.2)

/-- Scan of get_closest_gridpoint: keep the pair (distance, gridpoint),
replacing it only on a strictly smaller distance. -/
def closestLoop {α : Type} (f : α → ℚ) (acc : ℚ × α) : List α → ℚ × α
  | [] => acc
  | gp :: rest =>
    if f gp < acc.1 then closestLoop f (f gp, gp) rest else closestLoop f acc rest

/-- get_closest_gridpoint: indexes gridpoints[0] unconditionally, raising
IndexError on an empty list; otherwise scans the whole list keeping the entry
at strictly smallest distance to the element location point (the host
DistanceTo primitive is the parameter). -/
def get_closest_gridpoint {P G : Type} (distanceTo : P → P → ℚ) (element_point : P)
    (gridpoints : List (GridPoint P G)) : Except PyErr (GridPoint P G) :=
  match gridpoints with
  | [] => .error .indexError
  | g0 :: rest =>
    .ok ((closestLoop (fun gp => distanceTo gp.point element_point)
      (distanceTo g0.point element_point, g0) (g0 :: rest)).2)

/-- CategorySet.Insert: a set, so an already present category is not added again. -/
def catSetInsert (cat_set : List Category) (cat : Category) : List Category :=
  if cat ∈ cat_set then cat_set else cat_set ++ [cat]

/-- Loop of get_category_set: look each builtin category up in the document
category table and insert it; a missing category makes Insert raise on None. -/
def categorySetLoop (doc : Doc) (cat_set : List Category) :
    List Nat → Except PyErr (List Category)
  | [] => .ok cat_set
  | builtin_cat :: rest =>
    match doc.categories.find? (fun c => c.id == builtin_cat) with
    | some cat => categorySetLoop doc (catSetInsert cat_set cat) rest
    | none => .error .argumentNull

/-- get_category_set, with the document threaded through to state that the
call leaves it unchanged. -/
def get_category_set (category_list : List Nat) (doc : Doc) :
    Doc × Except PyErr (List Category) :=
  (doc, categorySetLoop doc [] category_list)

/-- Loop of get_all_category_set: insert every document category, restricted
to AllowsBoundParameters when bindable. -/
def allCategorySetLoop (bindable : Bool) (cat_set : List Category) :
    List Category → List Category
  | [] => cat_set
  | cat :: rest =>
    allCategorySetLoop bindable
      (if bindable then
        (if cat.AllowsBoundParameters then catSetInsert cat_set cat else cat_set)
       else catSetInsert cat_set cat) rest

/-- get_all_category_set, with the document threaded through. -/
def get_all_category_set (bindable : Bool) (doc : Doc) : Doc × List Category :=
  (doc, allCategorySetLoop bindable [] doc.categories)

/-- The list inside a successful result; an error carries none. -/
def okList {α : Type} : Except PyErr (List α) → List α
  | .ok l => l
  | .error _ => []

/-- The two loops of get_value_range agree: the inner isspace conditional has
identical branches. -/
theorem valueRangeLoop_eq_simple (param_name : String) :
    ∀ (els : List Element) (values : List Value),
    valueRangeLoop param_name values els = valueRangeLoopSimple param_name values els := by
  intro els
  induction els with
  | nil => intro values; rfl
  | cons el rest ih =>
    intro values
    cases hlook : el.LookupParameter param_name with
    | none =>
      simp only [valueRangeLoop, valueRangeLoopSimple, hlook]
      exact ih values
    | some targetparam =>
      cases hval : get_param_value targetparam with
      | error e => simp only [valueRangeLoop, valueRangeLoopSimple, hlook, hval]
      | ok value =>
        simp only [valueRangeLoop, valueRangeLoopSimple, hlook, hval, ite_self]
        by_cases h : (!(valueIsNone value) && !((safe_strtype value).toLower == "none")) = true
        · rw [if_pos h, if_pos h]; exact ih (setAdd values value)
        · rw [if_neg h, if_neg h]; exact ih values

/-- C10: the whitespace test in get_value_range is ineffective; for every
document and parameter name the function returns the same result as the
simplified version without the isspace check, whitespace-only strings
included. -/
theorem get_value_range_isspace_dead (param_name : String) (doc : Doc) :
    get_value_range param_name doc = get_value_range_simple param_name doc :=
  valueRangeLoop_eq_simple param_name (get_all_elements doc) []

/-- C8: get_param_value returns the AsDouble, AsInteger, AsString or
AsElementId value for the Double, Integer, String and ElementId storage
types, and for any other storage type no branch assigns the local, so the
function fails with an unbound local variable instead of returning an
absent value. -/
theorem get_param_value_storage_dispatch (x n : Int) (s : Option String) (e : Nat) :
    get_param_value (Param.mk .double x n s e) = .ok (.d x)
    ∧ get_param_value (Param.mk .integer x n s e) = .ok (.i n)
    ∧ get_param_value (Param.mk .string_ x n s e) = .ok (.s s)
    ∧ get_param_value (Param.mk .elementId x n s e) = .ok (.eid e)
    ∧ get_param_value (Param.mk .noneT x n s e) = .error .unboundLocal :=
  ⟨rfl, rfl, rfl, rfl, rfl⟩

/-- C4: get_sharedparam_definition_file raises exactly when no shared
parameters file is defined or the defined file fails to open, and otherwise
returns the opened shared parameter file object. -/
theorem get_sharedparam_definition_file_spec {SPF : Type} (app : RevitApp SPF) (f : SPF) :
    ((∃ e, get_sharedparam_definition_file app = .error e) ↔
      (app.SharedParametersFilename = "" ∨ app.OpenSharedParameterFile = none))
    ∧ (get_sharedparam_definition_file app = .ok f ↔
      (app.SharedParametersFilename ≠ "" ∧ app.OpenSharedParameterFile = some f)) := by
  unfold get_sharedparam_definition_file
  by_cases h : app.SharedParametersFilename = ""
  · simp [h]
  · cases hop : app.OpenSharedParameterFile <;> simp [h, hop]

/-- Witness for C4 at a concrete application state. -/
theorem get_sharedparam_definition_file_spec_witness :
    get_sharedparam_definition_file (RevitApp.mk "shared.txt" (some 42)) = .ok 42 :=
  ((get_sharedparam_definition_file_spec (RevitApp.mk "shared.txt" (some 42)) 42).2).mpr
    ⟨by decide, rfl⟩

/-- C2 amended: the two degenerate-input failures the blanket claim misses,
characterised exactly: get_biparam_stringequals_filter raises precisely when
its input mapping is empty, and get_closest_gridpoint fails precisely when
its gridpoints list is empty. -/
theorem empty_input_failures {P G : Type} (distanceTo : P → P → ℚ) (element_point : P)
    (d : List (Nat × String)) (gridpoints : List (GridPoint P G)) :
    ((∃ e, get_biparam_stringequals_filter d = .error e) ↔ d = [])
    ∧ ((∃ e, get_closest_gridpoint distanceTo element_point gridpoints = .error e) ↔
        gridpoints = []) := by
  constructor
  · cases d <;> simp [get_biparam_stringequals_filter]
  · cases gridpoints <;> simp [get_closest_gridpoint]

/-- C2 counterexample: get_biparam_stringequals_filter raises on the empty
mapping and succeeds on a singleton, so a function of the module raises merely
because its input mapping is empty. -/
theorem get_biparam_stringequals_filter_empty_raises :
    get_biparam_stringequals_filter [] = .error (.pyRevit "Error creating filters.")
    ∧ get_biparam_stringequals_filter [(1, "a")] =
        .ok (.paramFilter [.stringEquals 1 "a" true]) :=
  ⟨rfl, rfl⟩

/-- Witness for the amended C2 at concrete inputs. -/
theorem empty_input_failures_witness :
    ((∃ e, get_biparam_stringequals_filter [(2, "b")] = .error e) ↔
      ([(2, "b")] : List (Nat × String)) = [])
    ∧ ((∃ e, get_closest_gridpoint (fun a b : ℚ => |a - b|) (0 : ℚ)
          [GridPoint.mk (1 : ℚ) ([] : List Nat)] = .error e) ↔
        [GridPoint.mk (1 : ℚ) ([] : List Nat)] = []) :=
  empty_input_failures (fun a b : ℚ => |a - b|) 0 [(2, "b")]
    [GridPoint.mk (1 : ℚ) ([] : List Nat)]

/-- Insertion into a category set stays inside any list containing the set
and the category. -/
theorem catSetInsert_subset {s t : List Category} {c : Category}
    (hs : s ⊆ t) (hc : c ∈ t) : catSetInsert s c ⊆ t := by
  unfold catSetInsert
  split
  · exact hs
  · intro x hx
    rcases List.mem_append.mp hx with h | h
    · exact hs h
    · rw [List.mem_singleton.mp h]; exact hc

/-- Every category a get_category_set loop returns was read from the document
category table. -/
theorem categorySetLoop_subset (doc : Doc) :
    ∀ (bics : List Nat) (s : List Category), s ⊆ doc.categories →
    okList (categorySetLoop doc s bics) ⊆ doc.categories := by
  intro bics
  induction bics with
  | nil => intro s hs; exact hs
  | cons b rest ih =>
    intro s hs
    cases hfind : doc.categories.find? (fun c => c.id == b) with
    | none =>
      simp only [categorySetLoop, hfind]
      intro x hx
      simp [okList] at hx
    | some cat =>
      simp only [categorySetLoop, hfind]
      exact ih _ (catSetInsert_subset hs (List.mem_of_find?_eq_some hfind))

/-- The get_all_category_set loop stays inside any list containing its
accumulator and the categories passing the bindable filter. -/
theorem allCategorySetLoop_subset (bindable : Bool) :
    ∀ (cats : List Category) (s t : List Category), s ⊆ t →
    (∀ c ∈ cats, (!bindable || c.AllowsBoundParameters) = true → c ∈ t) →
    allCategorySetLoop bindable s cats ⊆ t := by
  intro cats
  induction cats with
  | nil => intro s t hs _; exact hs
  | cons c rest ih =>
    intro s t hs hc
    simp only [allCategorySetLoop]
    refine ih _ _ ?_ (fun x hx hxp => hc x (List.mem_cons_of_mem c hx) hxp)
    by_cases hb : bindable = true
    · rw [if_pos hb]
      by_cases hab : c.AllowsBoundParameters = true
      · rw [if_pos hab]
        exact catSetInsert_subset hs (hc c (List.mem_cons_self c rest) (by simp [hab]))
      · rw [if_neg hab]
        exact hs
    · rw [if_neg hb]
      have hb' : bindable = false := by revert hb; cases bindable <;> simp
      exact catSetInsert_subset hs (hc c (List.mem_cons_self c rest) (by simp [hb']))

/-- C7: the cited query functions only read and filter: get_category_set and
get_all_category_set leave the document unchanged and return only categories
read from the document category table (restricted, for the bindable set, to
those allowing bound parameters), and get_biparam_stringequals_filter touches
no document at all, its result being exactly one string-equals rule per input
item. -/
theorem query_functions_read_only (category_list : List Nat) (bindable : Bool)
    (doc : Doc) (d : List (Nat × String)) :
    (get_category_set category_list doc).1 = doc
    ∧ okList (get_category_set category_list doc).2 ⊆ doc.categories
    ∧ (get_all_category_set bindable doc).1 = doc
    ∧ (get_all_category_set bindable doc).2 ⊆
        doc.categories.filter (fun c => !bindable || c.AllowsBoundParameters)
    ∧ rulesOf (get_biparam_stringequals_filter d) =
        d.map (fun p => FilterRule.stringEquals p.1 p.2 true) := by
  refine ⟨rfl, ?_, rfl, ?_, ?_⟩
  · exact categorySetLoop_subset doc category_list [] (by simp)
  · refine allCategorySetLoop_subset bindable doc.categories [] _ (by simp) ?_
    intro c hc hcp
    exact List.mem_filter.mpr ⟨hc, hcp⟩
  · cases d with
    | nil => rfl
    | cons p rest => simp [get_biparam_stringequals_filter, rulesOf]

/-- Witness for C7 at a concrete document and inputs. -/
theorem query_functions_read_only_witness :
    (get_category_set [3] (Doc.mk [] [] [Category.mk 3 "Doors" true])).1 =
        Doc.mk [] [] [Category.mk 3 "Doors" true]
    ∧ okList (get_category_set [3] (Doc.mk [] [] [Category.mk 3 "Doors" true])).2 ⊆
        (Doc.mk [] [] [Category.mk 3 "Doors" true]).categories
    ∧ (get_all_category_set true (Doc.mk [] [] [Category.mk 3 "Doors" true])).1 =
        Doc.mk [] [] [Category.mk 3 "Doors" true]
    ∧ (get_all_category_set true (Doc.mk [] [] [Category.mk 3 "Doors" true])).2 ⊆
        (Doc.mk [] [] [Category.mk 3 "Doors" true]).categories.filter
          (fun c => !true || c.AllowsBoundParameters)
    ∧ rulesOf (get_biparam_stringequals_filter [(7, "x")]) =
        [(7, "x")].map (fun p => FilterRule.stringEquals p.1 p.2 true) :=
  query_functions_read_only [3] true (Doc.mk [] [] [Category.mk 3 "Doors" true]) [(7, "x")]

/-- The pair loop splits over list append. -/
theorem gridPairsLoop_append {P G : Type} [DecidableEq P] (intersect : G → G → Option P) :
    ∀ (p₁ p₂ : List (G × G)) (gints : List (P × List G)),
    gridPairsLoop intersect gints (p₁ ++ p₂) =
      gridPairsLoop intersect (gridPairsLoop intersect gints p₁) p₂ := by
  intro p₁
  induction p₁ with
  | nil => intro p₂ g; rfl
  | cons p rest ih =>
    intro p₂ g
    obtain ⟨g1, g2⟩ := p
    cases hi : intersect g1 g2 with
    | none =>
      simp only [List.cons_append, gridPairsLoop, hi]
      apply ih
    | some pt =>
      simp only [List.cons_append, gridPairsLoop, hi]
      apply ih

/-- The pair loop over one fixed first component is the inner grid loop. -/
theorem gridPairsLoop_map_pair {P G : Type} [DecidableEq P] (intersect : G → G → Option P)
    (a : G) :
    ∀ (l : List G) (gints : List (P × List G)),
    gridPairsLoop intersect gints (l.map (fun b => (a, b))) =
      gridIntersectInner intersect a gints l := by
  intro l
  induction l with
  | nil => intro g; rfl
  | cons b rest ih =>
    intro g
    cases hi : intersect a b with
    | none =>
      simp only [List.map_cons, gridPairsLoop, gridIntersectInner, hi]
      apply ih
    | some pt =>
      simp only [List.map_cons, gridPairsLoop, gridIntersectInner, hi]
      apply ih

/-- The pair loop over all ordered pairs is the nested grid loop. -/
theorem gridPairsLoop_ordPairsAux {P G : Type} [DecidableEq P] (intersect : G → G → Option P)
    (l₂ : List G) :
    ∀ (l₁ : List G) (gints : List (P × List G)),
    gridPairsLoop intersect gints (ordPairsAux l₁ l₂) =
      gridIntersectOuter intersect l₂ gints l₁ := by
  intro l₁
  induction l₁ with
  | nil => intro g; rfl
  | cons a rest ih =>
    intro g
    have hsplit : ordPairsAux (a :: rest) l₂ =
        l₂.map (fun b => (a, b)) ++ ordPairsAux rest l₂ := rfl
    rw [hsplit, gridPairsLoop_append, gridPairsLoop_map_pair]
    simp only [gridIntersectOuter]
    apply ih

/-- The ordered-pair list of two lists has the product of their lengths. -/
theorem ordPairsAux_length {α : Type} (l₂ : List α) :
    ∀ l₁ : List α, (ordPairsAux l₁ l₂).length = l₁.length * l₂.length := by
  intro l₁
  induction l₁ with
  | nil => simp [ordPairsAux]
  | cons a rest ih =>
    have hsplit : ordPairsAux (a :: rest) l₂ =
        l₂.map (fun b => (a, b)) ++ ordPairsAux rest l₂ := rfl
    rw [hsplit]
    simp [ih, Nat.succ_mul, Nat.add_comm]

/-- Replacing the value at one key leaves every other key unchanged. -/
theorem lookupD_map_ne {κ β : Type} [DecidableEq κ] (k : κ) (v : β) {k' : κ} (hne : k' ≠ k) :
    ∀ d : List (κ × β),
    lookupD (d.map (fun kv => if kv.1 = k then (k, v) else kv)) k' = lookupD d k' := by
  intro d
  induction d with
  | nil => rfl
  | cons kv rest ih =>
    by_cases h1 : kv.1 = k
    · simp only [List.map_cons, if_pos h1, lookupD]
      rw [if_neg (Ne.symm hne), if_neg (fun h : kv.1 = k' => hne (h ▸ h1))]
      exact ih
    · simp only [List.map_cons, if_neg h1, lookupD]
      by_cases h2 : kv.1 = k'
      · rw [if_pos h2, if_pos h2]
      · rw [if_neg h2, if_neg h2]
        exact ih

/-- Replacing the value at a present key makes the lookup return the new value. -/
theorem lookupD_map_self {κ β : Type} [DecidableEq κ] (k : κ) (v : β) :
    ∀ d : List (κ × β), d.any (fun kv => decide (kv.1 = k)) = true →
    lookupD (d.map (fun kv => if kv.1 = k then (k, v) else kv)) k = some v := by
  intro d
  induction d with
  | nil => intro h; simp at h
  | cons kv rest ih =>
    intro h
    by_cases h1 : kv.1 = k
    · simp only [List.map_cons, if_pos h1, lookupD]
      simp
    · simp only [List.any_cons, Bool.or_eq_true, decide_eq_true_eq] at h
      rcases h with h | h
      · exact absurd h h1
      · simp only [List.map_cons, if_neg h1, lookupD, if_neg h1]
        exact ih h

/-- Appending a fresh key behaves as an update at that key. -/
theorem lookupD_append_new {κ β : Type} [DecidableEq κ] (k : κ) (v : β) (k' : κ) :
    ∀ d : List (κ × β), d.any (fun kv => decide (kv.1 = k)) = false →
    lookupD (d ++ [(k, v)]) k' = if k' = k then some v else lookupD d k' := by
  intro d
  induction d with
  | nil =>
    intro _
    simp only [List.nil_append, lookupD]
    by_cases h : k = k'
    · rw [if_pos h, if_pos h.symm]
    · rw [if_neg h, if_neg (fun hh : k' = k => h hh.symm)]
  | cons kv rest ih =>
    intro h
    simp only [List.any_cons, Bool.or_eq_false_iff, decide_eq_false_iff_not] at h
    simp only [List.cons_append, lookupD, List.append_eq]
    by_cases h2 : kv.1 = k'
    · have hk : ¬(k' = k) := fun hh => h.1 (h2.trans hh)
      rw [if_pos h2, if_neg hk, if_pos h2]
    · rw [if_neg h2, ih (by simp [h.2])]
      by_cases h3 : k' = k
      · rw [if_pos h3, if_pos h3]
      · rw [if_neg h3, if_neg h3, if_neg h2]

/-- Python dict update semantics of dictInsert: the inserted key now maps to
the new value and every other key is untouched; a later insertion at the same
point therefore replaces the earlier one. -/
theorem lookupD_dictInsert {κ β : Type} [DecidableEq κ] (d : List (κ × β)) (k : κ) (v : β)
    (k' : κ) :
    lookupD (dictInsert d k v) k' = if k' = k then some v else lookupD d k' := by
  unfold dictInsert
  by_cases hany : d.any (fun kv => decide (kv.1 = k)) = true
  · rw [if_pos hany]
    by_cases hk : k' = k
    · rw [if_pos hk, hk]
      exact lookupD_map_self k v d hany
    · rw [if_neg hk]
      exact lookupD_map_ne k v hk d
  · rw [if_neg hany]
    exact lookupD_append_new k v k' d (by revert hany; cases d.any (fun kv => decide (kv.1 = k)) <;> simp)

/-- C1: get_gridpoints is pairwise curve-intersection over the in-memory grid
list: it agrees with the single loop over all ordered pairs of source grids
(there are n squared such pairs, each grid paired with itself and both orders
present), each overlapping pair recording one GridPoint with the intersection
point and the two grids, keyed by the point with later pairs replacing
earlier ones (the dictInsert law in the last conjunct). -/
theorem get_gridpoints_pairwise {P G : Type} [DecidableEq P] (intersect : G → G → Option P)
    (source_grids : List G) (d : List (P × List G)) (k : P) (v : List G) (k' : P) :
    get_gridpoints intersect source_grids = gridpointsSpec intersect source_grids
    ∧ (orderedPairs source_grids).length = source_grids.length * source_grids.length
    ∧ lookupD (dictInsert d k v) k' = (if k' = k then some v else lookupD d k') := by
  refine ⟨?_, ?_, lookupD_dictInsert d k v k'⟩
  · unfold get_gridpoints gridpointsSpec orderedPairs
    rw [gridPairsLoop_ordPairsAux]
  · exact ordPairsAux_length source_grids source_grids

/-- Witness for C1 at a concrete intersection function and grid list. -/
theorem get_gridpoints_pairwise_witness :
    get_gridpoints (fun g1 g2 : Nat => if (g1 + g2) % 3 == 0 then some ((g1 * g2) % 4) else none)
        [1, 2, 3, 5]
      = gridpointsSpec (fun g1 g2 : Nat => if (g1 + g2) % 3 == 0 then some ((g1 * g2) % 4) else none)
        [1, 2, 3, 5]
    ∧ (orderedPairs [1, 2, 3, 5]).length = [1, 2, 3, 5].length * [1, 2, 3, 5].length
    ∧ lookupD (dictInsert [((2 : Nat), [1]), (1, [5])] 2 [7]) 2 =
        (if 2 = 2 then some [7] else lookupD [((2 : Nat), [1]), (1, [5])] 2) :=
  get_gridpoints_pairwise
    (fun g1 g2 : Nat => if (g1 + g2) % 3 == 0 then some ((g1 * g2) % 4) else none)
    [1, 2, 3, 5] [((2 : Nat), [1]), (1, [5])] 2 [7] 2

/-- The strict-update scan keeps the accumulator when nothing beats it, and
otherwise lands on the first strict improvement among the eventual minima:
the result is the first entry of the list attaining the minimum, unless the
accumulator already ties or beats the whole list. -/
theorem closestLoop_spec {α : Type} (f : α → ℚ) :
    ∀ (l : List α) (acc : ℚ × α),
    (closestLoop f acc l = acc ∧ ∀ y ∈ l, acc.1 ≤ f y) ∨
    (∃ pre x post, l = pre ++ x :: post ∧ closestLoop f acc l = (f x, x) ∧
      f x < acc.1 ∧ (∀ y ∈ pre, f x < f y) ∧ (∀ y ∈ l, f x ≤ f y)) := by
  intro l
  induction l with
  | nil =>
    intro acc
    left
    exact ⟨rfl, by simp⟩
  | cons gp rest ih =>
    intro acc
    by_cases h : f gp < acc.1
    · have hstep : closestLoop f acc (gp :: rest) = closestLoop f (f gp, gp) rest := by
        simp only [closestLoop, if_pos h]
      rcases ih (f gp, gp) with ⟨heq, hmin⟩ | ⟨pre, x, post, hsplit, heq, hlt, hpre, hall⟩
      · right
        refine ⟨[], gp, rest, by simp, ?_, h, by simp, ?_⟩
        · rw [hstep, heq]
        · intro y hy
          rcases List.mem_cons.mp hy with hy | hy
          · rw [hy]
          · exact hmin y hy
      · right
        refine ⟨gp :: pre, x, post, by rw [hsplit]; rfl, by rw [hstep, heq], lt_trans hlt h, ?_, ?_⟩
        · intro y hy
          rcases List.mem_cons.mp hy with hy | hy
          · rw [hy]; exact hlt
          · exact hpre y hy
        · intro y hy
          rcases List.mem_cons.mp hy with hy | hy
          · rw [hy]; exact le_of_lt hlt
          · exact hall y hy
    · have hstep : closestLoop f acc (gp :: rest) = closestLoop f acc rest := by
        simp only [closestLoop, if_neg h]
      have hge : acc.1 ≤ f gp := le_of_not_lt h
      rcases ih acc with ⟨heq, hmin⟩ | ⟨pre, x, post, hsplit, heq, hlt, hpre, hall⟩
      · left
        refine ⟨by rw [hstep, heq], ?_⟩
        intro y hy
        rcases List.mem_cons.mp hy with hy | hy
        · rw [hy]; exact hge
        · exact hmin y hy
      · right
        refine ⟨gp :: pre, x, post, by rw [hsplit]; rfl, by rw [hstep, heq], hlt, ?_, ?_⟩
        · intro y hy
          rcases List.mem_cons.mp hy with hy | hy
          · rw [hy]; exact lt_of_lt_of_le hlt hge
          · exact hpre y hy
        · intro y hy
          rcases List.mem_cons.mp hy with hy | hy
          · rw [hy]; exact le_of_lt (lt_of_lt_of_le hlt hge)
          · exact hall y hy

/-- C9: get_closest_gridpoint fails on the empty list (it indexes the first
entry unconditionally), and on every nonempty list returns a grid point at
minimal distance to the element location point, the first such entry in list
order when several tie. -/
theorem get_closest_gridpoint_first_min {P G : Type} (distanceTo : P → P → ℚ)
    (element_point : P) (g0 : GridPoint P G) (rest : List (GridPoint P G)) :
    get_closest_gridpoint distanceTo element_point ([] : List (GridPoint P G)) =
        .error .indexError
    ∧ ∃ x pre post,
        get_closest_gridpoint distanceTo element_point (g0 :: rest) = .ok x
        ∧ g0 :: rest = pre ++ x :: post
        ∧ (∀ y ∈ pre, distanceTo x.point element_point < distanceTo y.point element_point)
        ∧ (∀ y ∈ g0 :: rest,
            distanceTo x.point element_point ≤ distanceTo y.point element_point) := by
  refine ⟨rfl, ?_⟩
  rcases closestLoop_spec (fun gp => distanceTo gp.point element_point) (g0 :: rest)
      (distanceTo g0.point element_point, g0) with
    ⟨heq, hmin⟩ | ⟨pre, x, post, hsplit, heq, hlt, hpre, hall⟩
  · refine ⟨g0, [], rest, ?_, by simp, by simp, hmin⟩
    simp only [get_closest_gridpoint, heq]
  · refine ⟨x, pre, post, ?_, hsplit, hpre, hall⟩
    simp only [get_closest_gridpoint, heq]

/-- Witness for C9 at a concrete distance function and gridpoint list. -/
theorem get_closest_gridpoint_first_min_witness :
    get_closest_gridpoint (fun a b : ℚ => |a - b|) (0 : ℚ) ([] : List (GridPoint ℚ Nat)) =
        .error .indexError
    ∧ ∃ x pre post,
        get_closest_gridpoint (fun a b : ℚ => |a - b|) (0 : ℚ)
            (GridPoint.mk (3 : ℚ) [1] :: [GridPoint.mk 1 [2], GridPoint.mk 1 [3]]) = .ok x
        ∧ GridPoint.mk (3 : ℚ) [1] :: [GridPoint.mk 1 [2], GridPoint.mk 1 [3]] =
            pre ++ x :: post
        ∧ (∀ y ∈ pre, |x.point - 0| < |y.point - 0|)
        ∧ (∀ y ∈ GridPoint.mk (3 : ℚ) [1] :: [GridPoint.mk 1 [2], GridPoint.mk 1 [3]],
            |x.point - 0| ≤ |y.point - 0|) :=
  get_closest_gridpoint_first_min (fun a b : ℚ => |a - b|) 0 (GridPoint.mk (3 : ℚ) [1])
    [GridPoint.mk 1 [2], GridPoint.mk 1 [3]]

/-- The reference loop of get_links appends exactly the filtered, wrapped
references. -/
theorem linksLoop_eq {LT : Type} [BEq LT] (doc : LinksDoc) (linktype : Option LT) :
    ∀ (refs : List (Nat × ExtRefData LT)) (links : List (ExternalRef LT)),
    linksLoop doc linktype links refs =
      links ++ linksFromTD doc linktype (TransData.mk refs) := by
  intro refs
  induction refs with
  | nil =>
    intro links
    cases linktype <;> simp [linksLoop, linksFromTD]
  | cons p rest ih =>
    intro links
    obtain ⟨refId, extRef⟩ := p
    cases linktype with
    | none =>
      simp only [linksLoop]
      rw [ih]
      simp [linksFromTD, List.append_assoc]
    | some lt =>
      by_cases hty : (extRef.ExternalFileReferenceType == lt) = true
      · simp only [linksLoop, if_pos hty]
        rw [ih]
        simp [linksFromTD, List.filter_cons, hty, List.append_assoc]
      · simp only [linksLoop, if_neg hty]
        rw [ih]
        simp only [Bool.not_eq_true] at hty
        simp [linksFromTD, List.filter_cons, hty]

/-- C3: get_links raises a PyRevitException exactly when the document
PathName is empty, the path fails to convert to a model path, or reading the
transmission data from that path fails; otherwise it returns the external
references, filtered to linktype when one is given, without raising. -/
theorem get_links_spec {MP LT : Type} [BEq LT] (convert : String → Option MP)
    (readTD : MP → Except String (TransData LT)) (linktype : Option LT) (doc : LinksDoc) :
    ((∃ e, get_links convert readTD linktype doc = .error e) ↔
      (doc.PathName = "" ∨ convert doc.PathName = none ∨
        ∃ mp s, convert doc.PathName = some mp ∧ readTD mp = .error s))
    ∧ (∀ mp td, doc.PathName ≠ "" → convert doc.PathName = some mp → readTD mp = .ok td →
        get_links convert readTD linktype doc = .ok (linksFromTD doc linktype td)) := by
  constructor
  · by_cases hp : doc.PathName = ""
    · simp [get_links, hp]
    · cases hc : convert doc.PathName with
      | none => simp [get_links, hp, hc]
      | some mp =>
        cases hr : readTD mp with
        | ok td => simp [get_links, hp, hc, hr, linksLoop_eq]
        | error s => simp [get_links, hp, hc, hr]
  · intro mp td hp hc hr
    simp only [get_links, hc, hr]
    rw [if_neg (by simp [hp])]
    rw [linksLoop_eq]
    simp

/-- Witness for C3 at a concrete document, converter and transmission data. -/
theorem get_links_spec_witness :
    get_links (fun _ => some (0 : Nat))
        (fun _ => .ok (TransData.mk [(5, ExtRefData.mk (2 : Nat))])) (some 2)
        (LinksDoc.mk "path" (fun n => some (n + 100))) =
      .ok [ExternalRef.mk (some 105) (ExtRefData.mk 2)] := by
  have h := (get_links_spec (fun _ => some (0 : Nat))
      (fun _ => .ok (TransData.mk [(5, ExtRefData.mk (2 : Nat))])) (some 2)
      (LinksDoc.mk "path" (fun n => some (n + 100)))).2
    0 (TransData.mk [(5, ExtRefData.mk 2)]) (by decide) rfl rfl
  rw [h]
  rfl

/-- On a handled storage type, get_param_value returns the dispatched value. -/
theorem get_param_value_of_handled {p : Param} (h : storageHandled p.StorageType = true) :
    get_param_value p = .ok (paramValue p) := by
  cases hst : p.StorageType with
  | double => simp [get_param_value, paramValue, hst]
  | integer => simp [get_param_value, paramValue, hst]
  | string_ => simp [get_param_value, paramValue, hst]
  | elementId => simp [get_param_value, paramValue, hst]
  | noneT => rw [hst] at h; simp [storageHandled] at h

/-- A string-shaped value is a some-string. -/
theorem valueIsStr_shape {v : Value} (h : valueIsStr v = true) : ∃ t, v = .s (some t) := by
  cases v with
  | s o =>
    cases o with
    | some t => exact ⟨t, rfl⟩
    | none => simp [valueIsStr] at h
  | d x => simp [valueIsStr] at h
  | i n => simp [valueIsStr] at h
  | eid n => simp [valueIsStr] at h

/-- One safe step of the get_elements_by_parameter loop appends the element
exactly when the matching predicate holds. -/
theorem elementsLoop_step (param_name : String) (param_value : Value) (partial_ : Bool)
    (el : Element) (rest : List Element) (found : List Element)
    (hsafe : lookupSafe partial_ param_value param_name el = true) :
    elementsLoop param_name param_value partial_ found (el :: rest) =
      elementsLoop param_name param_value partial_
        (found ++ (if elemMatches param_name param_value partial_ el then [el] else []))
        rest := by
  cases hlook : el.LookupParameter param_name with
  | none =>
    simp only [elementsLoop, hlook, elemMatches]
    simp
  | some p =>
    have hsafe' := hsafe
    unfold lookupSafe at hsafe'
    rw [hlook] at hsafe'
    simp only [Bool.and_eq_true, Bool.or_eq_true] at hsafe'
    obtain ⟨hhandled, htype⟩ := hsafe'
    have hval : get_param_value p = .ok (paramValue p) := get_param_value_of_handled hhandled
    simp only [elementsLoop, hlook, hval, elemMatches]
    by_cases hguard :
        (partial_ && !(valueIsNone (paramValue p)) && valueIsStr (paramValue p)) = true
    · have hpv : valueIsStr param_value = true := by
        rcases htype with hcontra | hok
        · rw [hguard] at hcontra; simp at hcontra
        · exact hok
      obtain ⟨ps, hps⟩ := valueIsStr_shape hpv
      have hstr : valueIsStr (paramValue p) = true := by
        have hg := hguard
        simp only [Bool.and_eq_true] at hg
        exact hg.2
      obtain ⟨vs, hvs⟩ := valueIsStr_shape hstr
      rw [if_pos hguard]
      rw [hps, hvs]
      rw [hvs] at hguard
      by_cases hin : strIn ps vs = true
      · simp [pyIn, pyInB, hguard, hin]
      · have hinf : strIn ps vs = false := by
          revert hin
          cases strIn ps vs <;> simp
        by_cases heq2 : pyEq (.s (some ps)) (.s (some vs)) = true
        · simp [pyIn, pyInB, hguard, hinf, heq2]
        · have heqf : pyEq (.s (some ps)) (.s (some vs)) = false := by
            revert heq2
            cases pyEq (.s (some ps)) (.s (some vs)) <;> simp
          simp [pyIn, pyInB, hguard, hinf, heqf]
    · rw [if_neg hguard]
      have hg : (partial_ && !(valueIsNone (paramValue p)) && valueIsStr (paramValue p)) = false := by
        revert hguard
        cases (partial_ && !(valueIsNone (paramValue p)) && valueIsStr (paramValue p)) <;> simp
      rw [hg]
      simp only [Bool.false_and, Bool.false_or]
      by_cases heq2 : pyEq param_value (paramValue p) = true
      · rw [if_pos heq2, if_pos heq2]
      · rw [if_neg heq2, if_neg heq2]
        simp

/-- Under elementwise safety, the get_elements_by_parameter loop computes the
filter by the matching predicate. -/
theorem elementsLoop_filter (param_name : String) (param_value : Value) (partial_ : Bool) :
    ∀ (els : List Element) (found : List Element),
    els.all (lookupSafe partial_ param_value param_name) = true →
    elementsLoop param_name param_value partial_ found els =
      .ok (found ++ els.filter (elemMatches param_name param_value partial_)) := by
  intro els
  induction els with
  | nil => intro found _; simp [elementsLoop]
  | cons el rest ih =>
    intro found hall
    simp only [List.all_cons, Bool.and_eq_true] at hall
    rw [elementsLoop_step param_name param_value partial_ el rest found hall.1, ih _ hall.2]
    by_cases hm : elemMatches param_name param_value partial_ el = true
    · rw [if_pos hm]
      simp [List.filter_cons, hm, List.append_assoc]
    · rw [if_neg hm]
      have hm' : elemMatches param_name param_value partial_ el = false := by
        revert hm
        cases elemMatches param_name param_value partial_ el <;> simp
      simp [List.filter_cons, hm']

/-- When every element has a handled parameter without a usable value, the
get_value_range loop keeps the accumulator. -/
theorem valueRangeLoop_skip (param_name : String) :
    ∀ (els : List Element) (values : List Value),
    els.all (fun el => elParamHandled param_name el && !(elHasUsable param_name el)) = true →
    valueRangeLoop param_name values els = .ok values := by
  intro els
  induction els with
  | nil => intro values _; rfl
  | cons el rest ih =>
    intro values hall
    simp only [List.all_cons, Bool.and_eq_true] at hall
    obtain ⟨⟨hh, hu⟩, hrest⟩ := hall
    cases hlook : el.LookupParameter param_name with
    | none =>
      simp only [valueRangeLoop, hlook]
      exact ih values hrest
    | some p =>
      simp only [elParamHandled, hlook] at hh
      have hval : get_param_value p = .ok (paramValue p) := get_param_value_of_handled hh
      simp only [elHasUsable, hlook, hval] at hu
      have hu' : valueUsable (paramValue p) = false := by
        revert hu
        cases valueUsable (paramValue p) <;> simp
      have hcond : (!(valueIsNone (paramValue p))
          && !((safe_strtype (paramValue p)).toLower == "none")) = false := hu'
      simp only [valueRangeLoop, hlook, hval, hcond]
      rw [if_neg Bool.false_ne_true]
      exact ih values hrest

/-- C6 amended: under the safety proviso that every carried parameter named
param_name has a handled storage type and that a partial query over a string
value is made with a string param_value, get_elements_by_parameter returns
exactly the subset of the host collection matching the predicate: carries the
parameter, and either partial_ holds with param_value a substring of the
non-None string value, or the value equals param_value. -/
theorem get_elements_by_parameter_filter (param_name : String) (param_value : Value)
    (partial_ : Bool) (doc : Doc)
    (hsafe : (get_all_elements doc).all (lookupSafe partial_ param_value param_name) = true) :
    get_elements_by_parameter param_name param_value doc partial_ =
      .ok ((get_all_elements doc).filter (elemMatches param_name param_value partial_)) := by
  unfold get_elements_by_parameter
  rw [elementsLoop_filter param_name param_value partial_ _ [] hsafe]
  simp

/-- Witness for the amended C6 on a concrete document with one matching and
one non-matching element. -/
theorem get_elements_by_parameter_filter_witness :
    get_elements_by_parameter "p" (.s (some "b"))
        (Doc.mk [Element.mk 1 [("p", Param.mk .string_ 0 0 (some "abc") 0)],
                 Element.mk 2 [("p", Param.mk .string_ 0 0 (some "xyz") 0)]] [] []) true =
      .ok ((get_all_elements
          (Doc.mk [Element.mk 1 [("p", Param.mk .string_ 0 0 (some "abc") 0)],
                   Element.mk 2 [("p", Param.mk .string_ 0 0 (some "xyz") 0)]] [] [])).filter
        (elemMatches "p" (.s (some "b")) true)) :=
  get_elements_by_parameter_filter "p" (.s (some "b")) true
    (Doc.mk [Element.mk 1 [("p", Param.mk .string_ 0 0 (some "abc") 0)],
             Element.mk 2 [("p", Param.mk .string_ 0 0 (some "xyz") 0)]] [] []) rfl

/-- C6 counterexample: on a document whose element carries the parameter with
StorageType.None, get_elements_by_parameter raises instead of returning the
claimed matching subset. -/
theorem get_elements_by_parameter_storage_crash :
    get_elements_by_parameter "p" (.s (some "x"))
        (Doc.mk [Element.mk 1 [("p", Param.mk .noneT 0 0 none 0)]] [] []) false
      = .error .unboundLocal
    ∧ get_elements_by_parameter "p" (.s (some "x"))
        (Doc.mk [Element.mk 1 [("p", Param.mk .noneT 0 0 none 0)]] [] []) false
      ≠ .ok ((get_all_elements
            (Doc.mk [Element.mk 1 [("p", Param.mk .noneT 0 0 none 0)]] [] [])).filter
          (elemMatches "p" (.s (some "x")) false)) := by
  refine ⟨rfl, fun h => ?_⟩
  have h0 : get_elements_by_parameter "p" (.s (some "x"))
      (Doc.mk [Element.mk 1 [("p", Param.mk .noneT 0 0 none 0)]] [] []) false
      = Except.error PyErr.unboundLocal := rfl
  rw [h0] at h
  exact Except.noConfusion h

/-- C5 amended: find_workset returns None exactly when no workset matches;
on documents where the parameter carried under the queried name always has a
handled storage type, a document with no usable value gives the empty set
from get_value_range; and under the same handled-storage proviso plus the
requirement that a partial query reaching the membership test is made with a
string param_value (the lookupSafe predicate), a document with no matching
element gives the empty list from get_elements_by_parameter.  Outside these
provisos the functions instead raise: an unbound local on an unhandled
storage type, a TypeError on a non-string param_value in a partial query
over a string value (see the counterexample for both). -/
theorem lookup_miss_returns_empty (workset_name_or_list : NameOrList) (partial_ : Bool)
    (doc : Doc) (param_name : String) (param_value : Value) :
    (find_workset workset_name_or_list doc partial_ = none ↔
      ∀ w ∈ doc.worksets, worksetMatches workset_name_or_list partial_ w = false)
    ∧ ((get_all_elements doc).all
          (fun el => elParamHandled param_name el && !(elHasUsable param_name el)) = true →
        get_value_range param_name doc = .ok [])
    ∧ ((get_all_elements doc).all
          (fun el => lookupSafe partial_ param_value param_name el
            && !(elemMatches param_name param_value partial_ el)) = true →
        get_elements_by_parameter param_name param_value doc partial_ = .ok []) := by
  refine ⟨?_, ?_, ?_⟩
  · cases workset_name_or_list with
    | names names =>
      simp only [find_workset, worksetMatches]
      rw [List.find?_eq_none]
      constructor
      · intro h w hw
        have := h w hw
        revert this
        cases names.any (fun n => strIn n w.Name) <;> simp
      · intro h w hw
        rw [h w hw]
        simp
    | name s =>
      simp only [find_workset, worksetMatches]
      by_cases hp : partial_ = true
      · simp only [if_pos hp]
        rw [List.find?_eq_none]
        constructor
        · intro h w hw
          have := h w hw
          revert this
          cases strIn s w.Name <;> simp
        · intro h w hw
          rw [h w hw]
          simp
      · simp only [if_neg hp]
        rw [List.find?_eq_none]
        constructor
        · intro h w hw
          have := h w hw
          revert this
          cases (s == w.Name) <;> simp
        · intro h w hw
          rw [h w hw]
          simp
    | other =>
      simp [find_workset, worksetMatches]
  · intro hall
    unfold get_value_range
    exact valueRangeLoop_skip param_name (get_all_elements doc) [] hall
  · intro hall
    have h1 : (get_all_elements doc).all (lookupSafe partial_ param_value param_name) = true := by
      rw [List.all_eq_true] at hall ⊢
      intro el hel
      have h := hall el hel
      rw [Bool.and_eq_true] at h
      exact h.1
    have h2 : (get_all_elements doc).filter (elemMatches param_name param_value partial_) = [] := by
      rw [List.filter_eq_nil_iff]
      intro el hel
      have h := (List.all_eq_true.mp hall) el hel
      rw [Bool.and_eq_true] at h
      have h3 := h.2
      revert h3
      cases elemMatches param_name param_value partial_ el <;> simp
    unfold get_elements_by_parameter
    rw [elementsLoop_filter param_name param_value partial_ _ [] h1, h2]
    rfl

/-- Witness for the amended C5 on an empty document and a concrete query. -/
theorem lookup_miss_returns_empty_witness :
    (find_workset (.name "q") (Doc.mk [] [] []) true = none ↔
      ∀ w ∈ (Doc.mk [] [] []).worksets, worksetMatches (.name "q") true w = false)
    ∧ get_value_range "p" (Doc.mk [] [] []) = .ok []
    ∧ get_elements_by_parameter "p" (.i 1) (Doc.mk [] [] []) false = .ok [] :=
  ⟨(lookup_miss_returns_empty (.name "q") true (Doc.mk [] [] []) "p" (.i 1)).1,
   (lookup_miss_returns_empty (.name "q") true (Doc.mk [] [] []) "p" (.i 1)).2.1 rfl,
   (lookup_miss_returns_empty (.name "q") true (Doc.mk [] [] []) "p" (.i 1)).2.2 rfl⟩

/-- C5 counterexample, refuting the empty-result claim at two concrete
inputs.  First, a document whose only element carries the parameter with
StorageType.None has no usable value for it, yet get_value_range raises an
unbound local error instead of returning the empty set.  Second, a partial
query with a non-string param_value over a handled string parameter matches
no element, yet get_elements_by_parameter raises a TypeError (Python
evaluates 5 in the string value) instead of returning the empty list; this
forces the string-param_value proviso in the amended claim. -/
theorem get_value_range_storage_crash :
    ((Doc.mk [Element.mk 1 [("p", Param.mk .noneT 0 0 none 0)]] [] []).elements.all
        (fun el => !(elHasUsable "p" el)) = true)
    ∧ get_value_range "p" (Doc.mk [Element.mk 1 [("p", Param.mk .noneT 0 0 none 0)]] [] [])
        = .error .unboundLocal
    ∧ get_value_range "p" (Doc.mk [Element.mk 1 [("p", Param.mk .noneT 0 0 none 0)]] [] [])
        ≠ .ok []
    ∧ ((Doc.mk [Element.mk 1 [("p", Param.mk .string_ 0 0 (some "abc") 0)]] [] []).elements.all
        (fun el => elParamHandled "p" el && !(elemMatches "p" (.i 5) true el)) = true)
    ∧ get_elements_by_parameter "p" (.i 5)
        (Doc.mk [Element.mk 1 [("p", Param.mk .string_ 0 0 (some "abc") 0)]] [] []) true
        = .error .typeError
    ∧ get_elements_by_parameter "p" (.i 5)
        (Doc.mk [Element.mk 1 [("p", Param.mk .string_ 0 0 (some "abc") 0)]] [] []) true
        ≠ .ok [] := by
  refine ⟨rfl, rfl, fun h => ?_, rfl, rfl, fun h => ?_⟩
  · have h0 : get_value_range "p"
        (Doc.mk [Element.mk 1 [("p", Param.mk .noneT 0 0 none 0)]] [] [])
        = Except.error PyErr.unboundLocal := rfl
    rw [h0] at h
    exact Except.noConfusion h
  · have h0 : get_elements_by_parameter "p" (.i 5)
        (Doc.mk [Element.mk 1 [("p", Param.mk .string_ 0 0 (some "abc") 0)]] [] []) true
        = Except.error PyErr.typeError := rfl
    rw [h0] at h
    exact Except.noConfusion h

end PyRevit
